import Mathlib

/-!
Verification of the docker-logger log monitor (Go).

Strings are modelled as `List Char`. Each definition below embeds one Go
function from the repository's main source file; the doc comment names it.
-/

namespace DockerLogger

/-- Models Go `strings.Contains s sub`: `sub` occurs contiguously in `s`. -/
def goContains (s sub : List Char) : Bool := decide (sub <:+: s)

/-- Models Go `strings.ToLower` on the ASCII range (every keyword, filter and
name appearing in the program's comparisons is ASCII). -/
def goToLower (s : List Char) : List Char :=
  s.map fun c => if 'A' ≤ c ∧ c ≤ 'Z' then Char.ofNat (c.toNat + 32) else c

/-- Models Go `unicode.IsSpace`: the Unicode White_Space code points. -/
def isGoSpace (c : Char) : Bool :=
  let n := c.toNat
  n == 9 || n == 10 || n == 11 || n == 12 || n == 13 || n == 32 ||
  n == 0x85 || n == 0xA0 || n == 0x1680 ||
  (decide (0x2000 ≤ n) && decide (n ≤ 0x200A)) ||
  n == 0x2028 || n == 0x2029 || n == 0x202F || n == 0x205F || n == 0x3000

/-- Models Go `strings.TrimSpace`: drop leading then trailing white space. -/
def trimSpace (l : List Char) : List Char :=
  ((l.dropWhile isGoSpace).reverse.dropWhile isGoSpace).reverse

/-- Models Go `strings.Split s ","` (so `splitComma [] = [[]]`, and a
trailing comma yields a trailing empty field, as in Go). -/
def splitComma : List Char → List (List Char)
  | [] => [[]]
  | c :: cs =>
    if c = ',' then [] :: splitComma cs
    else
      match splitComma cs with
      | [] => [[c]]
      | h :: t => (c :: h) :: t

/-- The predicate of the `strings.Map` pass in `sanitizeLogLine`: a rune is
kept unless its code point is below 32 and it is none of tab, newline,
carriage return. -/
def keepRune (c : Char) : Bool :=
  !(decide (c.toNat < 32) && c != '\t' && c != '\n' && c != '\r')

/-- The `strings.Map` pass of `sanitizeLogLine` (returning -1 drops the rune). -/
def mapControl (l : List Char) : List Char := l.filter keepRune

/-- The `strings.ReplaceAll sanitized "\u0000" ""` pass of `sanitizeLogLine`. -/
def removeNul (l : List Char) : List Char := l.filter fun c => c != Char.ofNat 0

/-- The ESC character, code point 27 (`\x1b` in the Go regex). -/
def escChar : Char := Char.ofNat 27

/-- A character matched by `[0-9;]` in the Go ANSI regex. -/
def isAnsiBody (c : Char) : Bool :=
  (decide ('0' ≤ c) && decide (c ≤ '9')) || c == ';'

/-- A character matched by `[a-zA-Z]` in the Go ANSI regex. -/
def isAnsiFinal (c : Char) : Bool :=
  (decide ('a' ≤ c) && decide (c ≤ 'z')) || (decide ('A' ≤ c) && decide (c ≤ 'Z'))

/-- After `ESC [`, try to match `[0-9;]*[a-zA-Z]`; on success return the
rest of the input after the final letter. -/
def ansiTail (l : List Char) : Option (List Char) :=
  match l.dropWhile isAnsiBody with
  | [] => Option.none
  | c :: rest => if isAnsiFinal c then Option.some rest else Option.none

/-- Try to match `\[[0-9;]*[a-zA-Z]` (the regex after its leading ESC) at the
front of `cs`; on success return the rest of the input after the match. -/
def ansiMatch (cs : List Char) : Option (List Char) :=
  match cs with
  | [] => Option.none
  | d :: rest => if d == '[' then ansiTail rest else Option.none

/-- Fuelled worker for the `regexp.MustCompile` / `ReplaceAllString` pass of
`sanitizeLogLine`: delete every leftmost match of `\x1b\[[0-9;]*[a-zA-Z]`.
The fuel only serves structural termination; `stripAnsi` supplies enough. -/
def stripAnsiFuel : Nat → List Char → List Char
  | 0, l => l
  | _ + 1, [] => []
  | fuel + 1, c :: cs =>
    if c == escChar then
      match ansiMatch cs with
      | Option.some rest' => stripAnsiFuel fuel rest'
      | Option.none => c :: stripAnsiFuel fuel cs
    else c :: stripAnsiFuel fuel cs

/-- The ANSI-escape removal pass of `sanitizeLogLine`. -/
def stripAnsi (l : List Char) : List Char := stripAnsiFuel l.length l

/-- Embeds Go `sanitizeLogLine`: control-character strip, NUL removal, ANSI
regex removal, then `TrimSpace` — in the order the Go code applies them. -/
def sanitizeLogLine (logLine : List Char) : List Char :=
  trimSpace (stripAnsi (removeNul (mapControl logLine)))

/-- The `(keyword, context)` pairs of `errorPatterns` in Go `isErrorMessage`. -/
def errorPatterns : List (List Char × List Char) :=
  [("error".toList, "".toList),
   ("exception".toList, "".toList),
   ("failed".toList, "failure".toList),
   ("panic".toList, "".toList),
   ("fatal".toList, "".toList),
   ("critical".toList, "".toList)]

/-- One iteration of the pattern loop in Go `isErrorMessage`: a plain keyword
matches by containment unless `"no "+keyword` or `keyword+": null"` also
occurs; a contextual keyword needs the context substring as well. -/
def errorPatternHit (logLine : List Char) (p : List Char × List Char) : Bool :=
  if p.2.isEmpty then
    goContains logLine p.1 &&
      !goContains logLine ("no ".toList ++ p.1) &&
      !goContains logLine (p.1 ++ ": null".toList)
  else
    goContains logLine p.1 && goContains logLine p.2

/-- Embeds Go `isErrorMessage`. -/
def isErrorMessage (logLine : List Char) : Bool :=
  if goContains logLine ("errors: []".toList) ||
      goContains logLine ("errors:[]".toList) ||
      goContains logLine ("error: null".toList) then
    false
  else
    errorPatterns.any (errorPatternHit logLine)

/-- The `warningKeywords` list of Go `isWarningMessage`. -/
def warningKeywords : List (List Char) :=
  ["warn".toList, "warning".toList, "deprecated".toList,
   "timeout".toList, "unavailable".toList]

/-- Embeds Go `isWarningMessage`. -/
def isWarningMessage (logLine : List Char) : Bool :=
  if goContains logLine ("status from".toList) ||
      goContains logLine ("changed status".toList) ||
      goContains logLine ("success".toList) then
    false
  else if goContains logLine ("retry".toList) &&
      (goContains logLine ("failed".toList) ||
       goContains logLine ("error".toList) ||
       goContains logLine ("timeout".toList)) then
    true
  else
    warningKeywords.any (goContains logLine)

/-- Embeds Go `isInfoMessage`. -/
def isInfoMessage (logLine : List Char) : Bool :=
  ["info".toList, "information".toList, "notice".toList,
   "success".toList].any (goContains logLine)

/-- Embeds Go `isDebugMessage`. -/
def isDebugMessage (logLine : List Char) : Bool :=
  ["debug".toList, "trace".toList, "verbose".toList].any (goContains logLine)

/-- Embeds the Go `LogConfig` struct (the fields the filtering logic reads;
`logLevels` is consumed during flag parsing only). -/
structure LogConfig where
  showAll : Bool
  showErrors : Bool
  showWarns : Bool
  showInfo : Bool
  showDebug : Bool
  customWords : List Char
  serviceNames : List (List Char)

/-- The custom-keyword loop of Go `shouldLogMessage`: skipped when
`customWords` is the empty string, else any comma-separated keyword,
lower-cased then trimmed, contained in the line is a hit. -/
def customKeywordHit (logLine : List Char) (config : LogConfig) : Bool :=
  if config.customWords.isEmpty then false
  else
    (splitComma config.customWords).any fun keyword =>
      goContains logLine (trimSpace (goToLower keyword))

/-- Embeds Go `shouldLogMessage`. -/
def shouldLogMessage (logLine : List Char) (config : LogConfig) : Bool :=
  if config.showAll then true
  else if customKeywordHit logLine config then true
  else if config.showErrors && isErrorMessage logLine then true
  else if config.showWarns && isWarningMessage logLine then true
  else if config.showInfo && isInfoMessage logLine then true
  else if config.showDebug && isDebugMessage logLine then true
  else false

/-- Embeds Go `matchesServiceName`. -/
def matchesServiceName (containerName : List Char)
    (serviceFilters : List (List Char)) : Bool :=
  if serviceFilters.isEmpty then true
  else
    serviceFilters.any fun filter =>
      goContains (goToLower containerName) (goToLower filter)

/-- Embeds Go `parseServiceNames`: split on commas, trim, drop empties. -/
def parseServiceNames (serviceList : List Char) : List (List Char) :=
  (splitComma serviceList).filterMap fun name =>
    let trimmed := trimSpace name
    if trimmed.isEmpty then Option.none else Option.some trimmed

/-- The severity a line is assigned: Error > Warning > Info > Debug > None,
first match wins. `streamContainerLogs` applies the same order when it picks
a colour (error, then warning, then normal). -/
inductive Severity : Type
  | error
  | warning
  | info
  | debug
  | none
  deriving DecidableEq

/-- The first-match-wins classifier over the code's four predicates, in the
priority order Error > Warning > Info > Debug > None. -/
def classify (logLine : List Char) : Severity :=
  if isErrorMessage logLine then Severity.error
  else if isWarningMessage logLine then Severity.warning
  else if isInfoMessage logLine then Severity.info
  else if isDebugMessage logLine then Severity.debug
  else Severity.none

/-- The result of the `ContainerInspect` call as the worker uses it: the
value of the `com.docker.compose.service` label, when the key is present. -/
structure ContainerInfo where
  composeServiceLabel : Option (List Char)

/-- The per-line body of the read loop in Go `streamContainerLogs`: skip an
empty raw line, sanitize, skip if empty, filter on the lower-cased text, and
otherwise emit the sanitized line. -/
def processLogLine (logLine : List Char) (config : LogConfig) :
    Option (List Char) :=
  if logLine.isEmpty then Option.none
  else
    let sanitized := sanitizeLogLine logLine
    if sanitized.isEmpty then Option.none
    else if shouldLogMessage (goToLower sanitized) config then
      Option.some sanitized
    else Option.none

/-- Embeds the control flow of Go `streamContainerLogs` with the Docker
calls made explicit: `inspectResult` is the `ContainerInspect` outcome,
`logsResult` the `ContainerLogs` outcome together with the lines the scanner
yields. The value is the list of (service name, sanitized line) pairs the
worker prints. -/
def streamContainerLogs (inspectResult : Except Unit ContainerInfo)
    (logsResult : Except Unit (List (List Char)))
    (containerName : List Char) (config : LogConfig) :
    List (List Char × List Char) :=
  match inspectResult with
  | Except.error _ => []
  | Except.ok containerInfo =>
    let serviceName :=
      match containerInfo.composeServiceLabel with
      | Option.some label => label
      | Option.none => containerName
    if !matchesServiceName containerName config.serviceNames then []
    else
      match logsResult with
      | Except.error _ => []
      | Except.ok lines =>
        (lines.filterMap fun l => processLogLine l config).map
          fun s => (serviceName, s)

/-- Modelled from the spec: "return true iff the line's classified severity
is in the enabled severity set", the classified severity being the single
first-match-wins severity. Stated for comparison with `shouldLogMessage`. -/
def specSeverityEmit (logLine : List Char) (config : LogConfig) : Bool :=
  match classify logLine with
  | Severity.error => config.showErrors
  | Severity.warning => config.showWarns
  | Severity.info => config.showInfo
  | Severity.debug => config.showDebug
  | Severity.none => false

/-!
Helper lemmas about the sanitizer passes.
-/

theorem ansiTail_sublist {l l' : List Char} (h : ansiTail l = Option.some l') :
    l'.Sublist l := by
  unfold ansiTail at h
  cases hd : l.dropWhile isAnsiBody with
  | nil => rw [hd] at h; simp at h
  | cons c rest =>
    rw [hd] at h
    cases hf : isAnsiFinal c with
    | false => simp [hf] at h
    | true =>
      simp [hf] at h
      have h1 : (c :: rest).Sublist l := hd ▸ List.dropWhile_sublist _
      have h2 : l'.Sublist (c :: rest) := h ▸ List.sublist_cons_self c rest
      exact h2.trans h1

theorem ansiMatch_sublist {cs rest' : List Char}
    (h : ansiMatch cs = Option.some rest') : rest'.Sublist cs := by
  cases cs with
  | nil => simp [ansiMatch] at h
  | cons d rest =>
    by_cases hd : (d == '[') = true
    · simp only [ansiMatch, hd, if_true] at h
      exact (ansiTail_sublist h).trans (List.sublist_cons_self d rest)
    · simp [ansiMatch, hd] at h

theorem stripAnsiFuel_sublist : ∀ (fuel : Nat) (l : List Char),
    (stripAnsiFuel fuel l).Sublist l := by
  intro fuel
  induction fuel with
  | zero => intro l; exact List.Sublist.refl l
  | succ n ih =>
    intro l
    cases l with
    | nil => exact List.Sublist.refl _
    | cons c cs =>
      by_cases hc : (c == escChar) = true
      · cases ht : ansiMatch cs with
        | none =>
          simp only [stripAnsiFuel, hc, if_true, ht]
          exact List.Sublist.cons₂ c (ih cs)
        | some rest' =>
          simp only [stripAnsiFuel, hc, if_true, ht]
          exact ((ih rest').trans (ansiMatch_sublist ht)).trans
            (List.sublist_cons_self c cs)
      · simp only [stripAnsiFuel, hc, Bool.false_eq_true, if_false]
        exact List.Sublist.cons₂ c (ih cs)

theorem stripAnsiFuel_of_not_mem {l : List Char} (hesc : escChar ∉ l) :
    ∀ fuel : Nat, stripAnsiFuel fuel l = l := by
  induction l with
  | nil => intro fuel; cases fuel <;> rfl
  | cons c cs ih =>
    intro fuel
    cases fuel with
    | zero => rfl
    | succ n =>
      have hc : (c == escChar) = false := by
        rw [beq_eq_false_iff_ne]
        intro he
        exact hesc (he ▸ List.mem_cons_self c cs)
      simp only [stripAnsiFuel, hc, Bool.false_eq_true, if_false]
      rw [ih (fun hm => hesc (List.mem_cons_of_mem c hm)) n]

theorem stripAnsi_sublist (l : List Char) : (stripAnsi l).Sublist l :=
  stripAnsiFuel_sublist l.length l

theorem stripAnsi_of_not_mem {l : List Char} (hesc : escChar ∉ l) :
    stripAnsi l = l :=
  stripAnsiFuel_of_not_mem hesc l.length

theorem trimSpace_sublist (l : List Char) : (trimSpace l).Sublist l := by
  unfold trimSpace
  have h1 : (l.dropWhile isGoSpace).Sublist l := List.dropWhile_sublist _
  have h2 := (List.dropWhile_sublist (l := (l.dropWhile isGoSpace).reverse)
    isGoSpace).reverse
  rw [List.reverse_reverse] at h2
  exact h2.trans h1

theorem dropWhile_eq_self_of_prefix {p : Char → Bool} {l₁ l₂ : List Char}
    (hp : l₁ <+: l₂) (h : l₂.dropWhile p = l₂) : l₁.dropWhile p = l₁ := by
  cases l₁ with
  | nil => rfl
  | cons a t =>
    obtain ⟨w, hw⟩ := hp
    cases l₂ with
    | nil => cases hw
    | cons b s =>
      have hab : a = b := by
        have := congrArg (fun x => x.head?) hw
        simpa using this
      subst hab
      rw [List.dropWhile_cons] at h ⊢
      by_cases hpa : p a = true
      · rw [if_pos hpa] at h
        have hlen := congrArg List.length h
        have hle := (List.dropWhile_sublist (l := s) p).length_le
        simp at hlen
        omega
      · rw [if_neg hpa]

theorem trimSpace_starts_dropWhile (l : List Char) :
    trimSpace l <+: l.dropWhile isGoSpace := by
  unfold trimSpace
  have h := List.reverse_prefix.mpr
    (List.dropWhile_suffix (l := (l.dropWhile isGoSpace).reverse) isGoSpace)
  rwa [List.reverse_reverse] at h

theorem dropWhile_trimSpace (l : List Char) :
    (trimSpace l).dropWhile isGoSpace = trimSpace l :=
  dropWhile_eq_self_of_prefix (trimSpace_starts_dropWhile l)
    (List.dropWhile_idempotent isGoSpace l)

theorem trimSpace_trimSpace (l : List Char) :
    trimSpace (trimSpace l) = trimSpace l := by
  conv_lhs => rw [trimSpace]
  rw [dropWhile_trimSpace]
  have h2 : (trimSpace l).reverse =
      List.dropWhile isGoSpace (l.dropWhile isGoSpace).reverse := by
    rw [trimSpace, List.reverse_reverse]
  rw [h2, List.dropWhile_idempotent, ← h2, List.reverse_reverse]

theorem sanitize_sublist_mapControl (s : List Char) :
    (sanitizeLogLine s).Sublist (mapControl s) := by
  unfold sanitizeLogLine
  exact (trimSpace_sublist _).trans
    ((stripAnsi_sublist _).trans (List.filter_sublist _))

theorem keepRune_of_mem_sanitize {c : Char} {s : List Char}
    (h : c ∈ sanitizeLogLine s) : keepRune c = true :=
  List.of_mem_filter ((sanitize_sublist_mapControl s).subset h)

/-- Claim C8: `sanitize` is idempotent — for every string `s`,
`sanitize (sanitize s) = sanitize s`. -/
theorem claim8_sanitize_idempotent (s : List Char) :
    sanitizeLogLine (sanitizeLogLine s) = sanitizeLogLine s := by
  have hmap : mapControl (sanitizeLogLine s) = sanitizeLogLine s :=
    List.filter_eq_self.mpr fun c hc => keepRune_of_mem_sanitize hc
  have hnul : removeNul (sanitizeLogLine s) = sanitizeLogLine s := by
    refine List.filter_eq_self.mpr fun c hc => ?_
    have hk := keepRune_of_mem_sanitize hc
    have hne : c ≠ Char.ofNat 0 := by
      intro he
      rw [he] at hk
      exact absurd hk (by decide)
    simpa using hne
  have hesc : escChar ∉ sanitizeLogLine s := by
    intro hm
    have hk := keepRune_of_mem_sanitize hm
    exact absurd hk (by decide)
  conv_lhs => rw [sanitizeLogLine]
  rw [hmap, hnul, stripAnsi_of_not_mem hesc]
  conv_lhs => rw [sanitizeLogLine]
  exact trimSpace_trimSpace _

/-- Claim C1: the spec asserts `sanitize` removes every ANSI escape sequence
`ESC [ digits/semicolons letter` and maps inputs made of control characters,
escapes and whitespace to the empty string. The code does not: the
control-character pass removes the ESC byte first, so the ANSI regex never
matches and the sequence tail survives. On the pure escape sequence
`ESC [ 3 1 m` the sanitizer returns `[31m`, not the empty string. -/
theorem claim1_sanitize_leaves_ansi_remnant :
    sanitizeLogLine (escChar :: "[31m".toList) = "[31m".toList ∧
    "[31m".toList ≠ ([] : List Char) := by
  constructor
  · rfl
  · decide

/-!
Helper lemmas about substring containment.
-/

theorem goContains_iff {s sub : List Char} :
    goContains s sub = true ↔ sub <:+: s := by
  unfold goContains
  exact decide_eq_true_iff

theorem goContains_of_goContains {s a b : List Char} (hab : a <:+: b)
    (h : goContains s b = true) : goContains s a = true :=
  goContains_iff.mpr (hab.trans (goContains_iff.mp h))

theorem goContains_nil (l : List Char) : goContains l [] = true :=
  goContains_iff.mpr List.nil_infix

/-- Claim C5: the keyword `failed` makes `isErrorMessage` match only when the
substring `failure` co-occurs in the same line; `classify "connection failed"`
is None and `classify "operation failed due to failure"` is Error. -/
theorem claim5_failed_requires_failure :
    (∀ l : List Char, goContains l ("failed".toList) = true →
      goContains l ("failure".toList) = false →
      goContains l ("error".toList) = false →
      goContains l ("exception".toList) = false →
      goContains l ("panic".toList) = false →
      goContains l ("fatal".toList) = false →
      goContains l ("critical".toList) = false →
      isErrorMessage l = false) ∧
    classify ("connection failed".toList) = Severity.none ∧
    classify ("operation failed due to failure".toList) = Severity.error := by
  refine ⟨?_, by decide, by decide⟩
  intro l hfd hfl herr hexc hpan hfat hcrit
  unfold isErrorMessage
  split
  · rfl
  · simp_all +decide [errorPatterns, errorPatternHit]

/-- Claim C5, witness: the universal part applied to the concrete line
`connection failed`. -/
theorem claim5_witness : isErrorMessage ("connection failed".toList) = false :=
  claim5_failed_requires_failure.1 ("connection failed".toList) (by decide)
    (by decide) (by decide) (by decide) (by decide) (by decide) (by decide)

/-- Claim C6: a line containing `retry` is counted a warning only when
`failed`, `error` or `timeout` co-occurs (absent every other warning
keyword); `classify "retry attempt 3"` is None and
`classify "retry failed after 3 attempts"` is Warning. -/
theorem claim6_retry_requires_co_context :
    (∀ l : List Char, goContains l ("retry".toList) = true →
      goContains l ("failed".toList) = false →
      goContains l ("error".toList) = false →
      goContains l ("timeout".toList) = false →
      goContains l ("warn".toList) = false →
      goContains l ("deprecated".toList) = false →
      goContains l ("unavailable".toList) = false →
      isWarningMessage l = false) ∧
    classify ("retry attempt 3".toList) = Severity.none ∧
    classify ("retry failed after 3 attempts".toList) = Severity.warning := by
  refine ⟨?_, by decide, by decide⟩
  intro l hrt hfd herr hto hwn hdep hun
  have hwng : goContains l ("warning".toList) = false := by
    cases hx : goContains l ("warning".toList) with
    | false => rfl
    | true =>
      have hw := goContains_of_goContains (a := "warn".toList)
        (b := "warning".toList) (by decide) hx
      rw [hwn] at hw
      cases hw
  unfold isWarningMessage
  split
  · rfl
  · simp_all +decide [warningKeywords]

/-- Claim C6, witness: the universal part applied to the concrete line
`retry attempt 3`. -/
theorem claim6_witness : isWarningMessage ("retry attempt 3".toList) = false :=
  claim6_retry_requires_co_context.1 ("retry attempt 3".toList) (by decide)
    (by decide) (by decide) (by decide) (by decide) (by decide) (by decide)

/-- Claim C7: a line containing `status from`, `changed status` or `success`
is never counted a warning, whatever other keywords it holds;
`classify "status from 200 to 503"` is None. -/
theorem claim7_status_success_short_circuit :
    (∀ l : List Char,
      (goContains l ("status from".toList) = true ∨
       goContains l ("changed status".toList) = true ∨
       goContains l ("success".toList) = true) →
      isWarningMessage l = false) ∧
    classify ("status from 200 to 503".toList) = Severity.none := by
  refine ⟨?_, by decide⟩
  intro l h
  unfold isWarningMessage
  rcases h with h | h | h <;> simp_all

/-- Claim C7, witness: the universal part applied to the concrete line
`warning: changed status to degraded`. -/
theorem claim7_witness :
    isWarningMessage ("warning: changed status to degraded".toList) = false :=
  claim7_status_success_short_circuit.1
    ("warning: changed status to degraded".toList) (Or.inr (Or.inl (by decide)))

/-!
Helper lemmas about the filter engine.
-/

theorem shouldLog_of_customKeywordHit {l : List Char} {cfg : LogConfig}
    (hall : cfg.showAll = false) (hhit : customKeywordHit l cfg = true) :
    shouldLogMessage l cfg = true := by
  unfold shouldLogMessage
  rw [hall, hhit]
  simp

theorem customKeywordHit_of_mem {l k : List Char} {cfg : LogConfig}
    (hne : cfg.customWords.isEmpty = false)
    (hk : k ∈ splitComma cfg.customWords)
    (hmatch : goContains l (trimSpace (goToLower k)) = true) :
    customKeywordHit l cfg = true := by
  unfold customKeywordHit
  rw [hne]
  simp only [Bool.false_eq_true, if_false]
  exact List.any_eq_true.mpr ⟨k, hk, hmatch⟩

/-- Claim C2 counterexample: the line `error warning` satisfies the warning
predicate as well as the error predicate, so with only `--warnings` enabled
the code emits it, while its first-match-wins classified severity is Error,
which is not in the enabled set — the claimed iff fails. -/
theorem claim2_counterexample :
    shouldLogMessage ("error warning".toList)
      ⟨false, false, true, false, false, [], []⟩ = true ∧
    specSeverityEmit ("error warning".toList)
      ⟨false, false, true, false, false, [], []⟩ = false := by decide

/-- Claim C2, amended: with show-all off and no custom keyword hit,
`shouldLogMessage` returns true iff some enabled severity's own predicate
matches the line — the per-severity predicates are tested independently, not
through the single first-match-wins severity. -/
theorem claim2_amended_severity_flags_independent (l : List Char)
    (cfg : LogConfig) (hall : cfg.showAll = false)
    (hkw : customKeywordHit l cfg = false) :
    shouldLogMessage l cfg =
      (cfg.showErrors && isErrorMessage l ||
       cfg.showWarns && isWarningMessage l ||
       cfg.showInfo && isInfoMessage l ||
       cfg.showDebug && isDebugMessage l) := by
  unfold shouldLogMessage
  rw [hall, hkw]
  cases h1 : cfg.showErrors && isErrorMessage l <;>
    cases h2 : cfg.showWarns && isWarningMessage l <;>
      cases h3 : cfg.showInfo && isInfoMessage l <;>
        cases h4 : cfg.showDebug && isDebugMessage l <;> simp

/-- Claim C2, witness for the amended statement: a concrete warning-only
configuration and the line `disk error`. -/
theorem claim2_witness :
    shouldLogMessage ("disk error".toList)
        ⟨false, false, true, false, false, [], []⟩ =
      (false && isErrorMessage ("disk error".toList) ||
       true && isWarningMessage ("disk error".toList) ||
       false && isInfoMessage ("disk error".toList) ||
       false && isDebugMessage ("disk error".toList)) :=
  claim2_amended_severity_flags_independent ("disk error".toList)
    ⟨false, false, true, false, false, [], []⟩ (by decide) (by decide)

theorem customKeywordHit_eq_false {l : List Char} {cfg : LogConfig}
    (h : ∀ k ∈ splitComma cfg.customWords,
      goContains l (trimSpace (goToLower k)) = false) :
    customKeywordHit l cfg = false := by
  unfold customKeywordHit
  split
  · rfl
  · cases ha : (splitComma cfg.customWords).any
        (fun k => goContains l (trimSpace (goToLower k))) with
    | false => rfl
    | true =>
      obtain ⟨k, hk, hmatch⟩ := List.any_eq_true.mp ha
      rw [h k hk] at hmatch
      cases hmatch

theorem shouldLog_no_flags {l : List Char} {cfg : LogConfig}
    (hall : cfg.showAll = false) (he : cfg.showErrors = false)
    (hw : cfg.showWarns = false) (hi : cfg.showInfo = false)
    (hd : cfg.showDebug = false) (hkw : customKeywordHit l cfg = false) :
    shouldLogMessage l cfg = false := by
  unfold shouldLogMessage
  rw [hall, hkw, he, hw, hi, hd]
  simp

/-- Claim C9: with show-all off, a configured custom keyword (lower-cased and
trimmed) contained in the line forces emission, whatever the severity flags;
and with `customWords = "auth"` and an empty severity mask, a line is emitted
exactly when it contains `auth`. -/
theorem claim9_custom_keywords_override :
    (∀ (l : List Char) (cfg : LogConfig) (k : List Char),
      cfg.showAll = false →
      cfg.customWords.isEmpty = false →
      k ∈ splitComma cfg.customWords →
      goContains l (trimSpace (goToLower k)) = true →
      shouldLogMessage l cfg = true) ∧
    (∀ l : List Char,
      shouldLogMessage l ⟨false, false, false, false, false, "auth".toList, []⟩ =
        goContains l ("auth".toList)) := by
  constructor
  · intro l cfg k hall hne hk hmatch
    exact shouldLog_of_customKeywordHit hall (customKeywordHit_of_mem hne hk hmatch)
  · intro l
    have htrim : trimSpace (goToLower ("auth".toList)) = "auth".toList := by decide
    cases hc : goContains l ("auth".toList) with
    | true =>
      rw [shouldLog_of_customKeywordHit rfl
        (customKeywordHit_of_mem (by decide) (by decide) (htrim.symm ▸ hc))]
    | false =>
      rw [shouldLog_no_flags rfl rfl rfl rfl rfl (customKeywordHit_eq_false ?_)]
      intro k hk
      have hka : k = "auth".toList := by
        rw [show splitComma ("auth".toList) = ["auth".toList] from by decide] at hk
        simpa using hk
      rw [hka, htrim]
      exact hc

/-- Claim C9, witness: the custom keyword `auth` forces emission of the line
`authentication ok` under an all-false severity mask. -/
theorem claim9_witness :
    shouldLogMessage ("authentication ok".toList)
      ⟨false, false, false, false, false, "auth".toList, []⟩ = true :=
  claim9_custom_keywords_override.1 ("authentication ok".toList)
    ⟨false, false, false, false, false, "auth".toList, []⟩ ("auth".toList)
    (by decide) (by decide) (by decide) (by decide)

/-- Claim C10: when the comma-separated custom keyword string splits into a
list with an entry that trims to the empty string (for example a trailing
comma, as in `auth,`), every line is emitted, because every string contains
the empty keyword. -/
theorem claim10_empty_keyword_matches_all (cfg : LogConfig) (l k : List Char)
    (hall : cfg.showAll = false)
    (hne : cfg.customWords.isEmpty = false)
    (hk : k ∈ splitComma cfg.customWords)
    (htrim : trimSpace (goToLower k) = []) :
    shouldLogMessage l cfg = true :=
  shouldLog_of_customKeywordHit hall
    (customKeywordHit_of_mem hne hk (htrim ▸ goContains_nil l))

/-- Claim C10, witness: `customWords = "auth,"` splits into `["auth", ""]`
and the keyword-free line `zzz` is emitted. -/
theorem claim10_witness :
    shouldLogMessage ("zzz".toList)
      ⟨false, false, false, false, false, "auth,".toList, []⟩ = true :=
  claim10_empty_keyword_matches_all
    ⟨false, false, false, false, false, "auth,".toList, []⟩
    ("zzz".toList) [] (by decide) (by decide) (by decide) (by decide)

/-- Claim C3 counterexample: the worker's service-label lookup is the
`ContainerInspect` call (made, per the code's own comment, to fetch the
compose service name). When that call errors the worker returns before
opening the log stream, so nothing is emitted, although the identical
worker whose lookup succeeds with no label streams the same line. The
claimed "non-fatal for every source" therefore fails. -/
theorem claim3_counterexample :
    streamContainerLogs (Except.error ()) (Except.ok ["disk error".toList])
      ("db".toList) ⟨true, false, false, false, false, [], []⟩ = [] ∧
    streamContainerLogs (Except.ok ⟨Option.none⟩)
      (Except.ok ["disk error".toList]) ("db".toList)
      ⟨true, false, false, false, false, [], []⟩ =
      [("db".toList, "disk error".toList)] := by decide

/-- Claim C3, amended: when the container-details lookup succeeds but
supplies no compose service label, the fallback is non-fatal — the worker
uses the raw container name as its display name and still opens the
transport and streams every passing line; a lookup that errors instead
terminates the worker before streaming. -/
theorem claim3_amended_label_absent_fallback (lines : List (List Char))
    (containerName : List Char) (cfg : LogConfig)
    (hgate : matchesServiceName containerName cfg.serviceNames = true) :
    streamContainerLogs (Except.ok ⟨Option.none⟩) (Except.ok lines)
        containerName cfg =
      (lines.filterMap fun l => processLogLine l cfg).map
        fun s => (containerName, s) := by
  unfold streamContainerLogs
  rw [hgate]
  simp

/-- Claim C3, witness for the amended statement: a label-less worker named
`db` streams its one passing line under `--all`. -/
theorem claim3_witness :
    streamContainerLogs (Except.ok ⟨Option.none⟩)
        (Except.ok ["disk error".toList]) ("db".toList)
        ⟨true, false, false, false, false, [], []⟩ =
      ((["disk error".toList].filterMap fun l =>
          processLogLine l ⟨true, false, false, false, false, [], []⟩).map
        fun s => (("db".toList : List Char), s)) :=
  claim3_amended_label_absent_fallback ["disk error".toList] ("db".toList)
    ⟨true, false, false, false, false, [], []⟩ (by decide)

/-- Claim C4 counterexample: the source-name gate tests the raw container
name, not the label-derived display name. Here the display name is the
compose label `api`, which contains the configured filter `api`, yet the
worker is excluded (it emits nothing, although its line passes every other
filter), so the claimed iff over display names fails. -/
theorem claim4_counterexample :
    goContains (goToLower ("api".toList)) (goToLower ("api".toList)) = true ∧
    streamContainerLogs (Except.ok ⟨Option.some ("api".toList)⟩)
      (Except.ok ["disk error".toList]) ("db".toList)
      ⟨true, false, false, false, false, [], ["api".toList]⟩ = [] := by decide

/-- Claim C4, amended: the gate matches against the raw container name — a
source passes iff the filter list is empty or some filter, lower-cased, is a
substring of the lower-cased raw name; `matchesServiceName "api-gateway-1"
["api"]` is true, `matchesServiceName "db" ["api"]` is false, and a worker
whose raw name fails the gate emits nothing. -/
theorem claim4_amended_gate_on_raw_name :
    (∀ (name : List Char) (fs : List (List Char)),
      matchesServiceName name fs = true ↔
        (fs = [] ∨ ∃ f ∈ fs, goContains (goToLower name) (goToLower f) = true)) ∧
    matchesServiceName ("api-gateway-1".toList) ["api".toList] = true ∧
    matchesServiceName ("db".toList) ["api".toList] = false ∧
    (∀ (info : ContainerInfo) (lines : List (List Char))
      (name : List Char) (cfg : LogConfig),
      matchesServiceName name cfg.serviceNames = false →
      streamContainerLogs (Except.ok info) (Except.ok lines) name cfg = []) := by
  refine ⟨?_, by decide, by decide, ?_⟩
  · intro name fs
    by_cases he : fs = []
    · subst he
      simp [matchesServiceName]
    · rw [matchesServiceName]
      rw [if_neg (by simpa [List.isEmpty_iff] using he)]
      rw [List.any_eq_true]
      simp [he]
  · intro info lines name cfg hgate
    unfold streamContainerLogs
    rw [hgate]
    simp

/-- Claim C4, witness: the gate conjunct applied to the excluded container
`db` with filter list `["api"]`. -/
theorem claim4_witness :
    streamContainerLogs (Except.ok ⟨Option.some ("api".toList)⟩)
      (Except.ok ["hello".toList]) ("db".toList)
      ⟨true, false, false, false, false, [], ["api".toList]⟩ = [] :=
  claim4_amended_gate_on_raw_name.2.2.2 ⟨Option.some ("api".toList)⟩
    ["hello".toList] ("db".toList)
    ⟨true, false, false, false, false, [], ["api".toList]⟩ (by decide)

end DockerLogger
